import Mathlib

/-!
Verification of the Model Resolution & Metadata subsystem
(`lib/judge/model_manager.py`).

The Python source is shallowly embedded: pure helpers become Lean
functions; code touching the filesystem, the network, the clock or the
process environment is parameterized by explicit environment/state
records describing the outcome of those effects.  Machine integers are
`Nat`/`Int` with explicit `% 2 ^ w` where overflow matters; Python
exceptions become `Except`/`Option` results.
-/

set_option autoImplicit false

namespace ModelManager

/-! ## Path resolver (`ModelManager.get_model_path`) -/

/-- `os.path.expanduser`: a leading `~` (alone, or followed by `/`) is
replaced with the user's home directory.  The `~otheruser` form (lookup
of another account's home) is left unchanged here; no caller of the
subsystem produces it. -/
def expanduser (home p : String) : String :=
  match p.toList with
  | ['~'] => home
  | '~' :: '/' :: rest => home ++ String.mk ('/' :: rest)
  | _ => p

/-- Split a character list at the first `'/'` (the list semantics of
Python's `str.split('/', 1)`): returns the part before the first slash
and everything after it, or `none` when no slash occurs. -/
def breakSlash : List Char → Option (List Char × List Char)
  | [] => none
  | c :: cs =>
    if c = '/' then some ([], cs)
    else
      match breakSlash cs with
      | some (a, b) => some (c :: a, b)
      | none => none

/-- `model_name.split('/', 1)` when the name contains a slash. -/
def splitFirstSlash (s : String) : Option (String × String) :=
  match breakSlash s.toList with
  | some (a, b) => some (String.mk a, String.mk b)
  | none => none

/-- The namespace component of a model identifier: the text before the
first `/`, or the sentinel `"default"` when there is no slash. -/
def namespaceOf (model_name : String) : String :=
  match splitFirstSlash model_name with
  | some (ns, _) => ns
  | none => "default"

/-- The model component of a model identifier: the text after the first
`/`, or the whole identifier when there is no slash. -/
def modelOf (model_name : String) : String :=
  match splitFirstSlash model_name with
  | some (_, m) => m
  | none => model_name

/-- The configuration document, restricted to the keys this subsystem
reads: `models.<identifier>.path` (per-model override) and `models_dir`.
`modelOverride n` is `config['models'][n]['path']` when that key chain is
present.  An empty configuration is the pair `(fun _ => none, none)`,
matching the falsiness checks `if self.config:` in the source. -/
structure Config where
  modelOverride : String → Option String
  models_dir : Option String

/-- The `base_dir` computation inside `get_model_path`: environment
override when truthy (`if env_path:` — the empty string behaves like
unset), else `models_dir` from the configuration, else the fixed
default `Path.home() / ".agentyard" / "models"`. -/
def baseDirOf (home : String) (envPath : Option String) (config : Config) : String :=
  match envPath with
  | some e =>
    if e ≠ "" then expanduser home e
    else
      match config.models_dir with
      | some d => expanduser home d
      | none => home ++ "/.agentyard/models"
  | none =>
    match config.models_dir with
    | some d => expanduser home d
    | none => home ++ "/.agentyard/models"

/-- `ModelManager.get_model_path`.  `envPath` is
`os.environ.get('AGENTYARD_MODELS_PATH')` (`none` when unset).  Paths
are modeled as plain strings joined with `/`. -/
def get_model_path (home : String) (envPath : Option String) (config : Config)
    (model_name : String) : String :=
  match config.modelOverride model_name with
  | some p => expanduser home p
  | none =>
    baseDirOf home envPath config ++ "/" ++ namespaceOf model_name ++ "/" ++
      modelOf model_name

/-- Path resolution exactly as the specification words it, for
comparison with `get_model_path`: the per-model override is returned
verbatim, the environment override is used whenever it is set, and the
fixed default base is `<home>/agentyard/models` (no dot). -/
def get_model_path_spec (home : String) (envPath : Option String) (config : Config)
    (model_name : String) : String :=
  match config.modelOverride model_name with
  | some p => p
  | none =>
    let base_dir :=
      match envPath with
      | some e => e
      | none =>
        match config.models_dir with
        | some d => d
        | none => home ++ "/agentyard/models"
    base_dir ++ "/" ++ namespaceOf model_name ++ "/" ++ modelOf model_name

/-! ## System capability and quantization selection -/

/-- One entry of the list built by `ModelManager.find_gguf_files`. -/
structure GGUFFileEntry where
  filename : String
  path : String
  size : Nat
  quantization : Option String
  url : String
  deriving DecidableEq

/-- `ModelManager.QUANT_RECOMMENDATIONS`.  The Python dict holds exactly
the keys `"high"`, `"medium"`, `"low"`; `_get_system_specs` returns no
other string, so the catch-all branch (a `KeyError` in Python) is
unreachable from `recommend_quantization`. -/
def QUANT_RECOMMENDATIONS : String → List String
  | "high" => ["Q8_0", "Q6_K", "Q5_K_M"]
  | "medium" => ["Q5_K_M", "Q4_K_M", "Q4_0"]
  | "low" => ["Q4_K_M", "Q3_K_M", "Q2_K"]
  | _ => []

/-- Inputs of `ModelManager._get_system_specs`: whether `psutil`
imported, the probed RAM in GiB (`psutil.virtual_memory().total /
1024**3`, an exact rational here), whether `platform.system()` is
`"Darwin"`, and whether the `nvidia-smi` probe succeeded with exit code
0 (`false` also covers the probe raising an exception). -/
structure SystemEnv where
  psutilAvailable : Bool
  totalRamGb : ℚ
  isDarwin : Bool
  nvidiaSmiOk : Bool

/-- `ModelManager._get_system_specs`. -/
def get_system_specs (sys : SystemEnv) : String :=
  if sys.psutilAvailable = false then "medium"
  else
    let has_gpu := if sys.isDarwin then true else sys.nvidiaSmiOk
    if has_gpu = true ∧ 32 ≤ sys.totalRamGb then "high"
    else if (has_gpu = true ∧ 16 ≤ sys.totalRamGb) ∨ 24 ≤ sys.totalRamGb then "medium"
    else "low"

/-- The nested loops of `ModelManager.recommend_quantization`: for each
preferred tag in order, scan the variants in order and return the first
hit. -/
def findPreferred : List String → List GGUFFileEntry → Option GGUFFileEntry
  | [], _ => none
  | q :: qs, files =>
    match files.find? (fun f => f.quantization = some q) with
    | some f => some f
    | none => findPreferred qs files

/-- `ModelManager.recommend_quantization` (its call to
`_get_system_specs` is reflected by the `sys` argument). -/
def recommend_quantization (sys : SystemEnv) (gguf_files : List GGUFFileEntry) :
    Option GGUFFileEntry :=
  if gguf_files.isEmpty then none
  else
    let system_level := get_system_specs sys
    let recommended_quants := QUANT_RECOMMENDATIONS system_level
    match findPreferred recommended_quants gguf_files with
    | some f => some f
    | none => gguf_files.head?

/-! ## Metadata cache (`_get_cached_model_info` / `_save_model_info_to_cache`)

On disk the cache is one JSON file per key at
`<cacheRoot>/model_info/<md5(model_id)>.json`.  The digest is a fixed
deterministic function of the id, so the store is modeled as a map keyed
by the id itself (the astronomically unlikely md5 collision is not
modeled, as the specification itself accepts).  Timestamps are seconds
as integers; `datetime.isoformat`/`fromisoformat` round-trip losslessly,
so the serialization is dropped. -/

/-- A cache file that parses: `{timestamp: ..., data: ...}`. -/
structure CacheRecord (D : Type) where
  timestamp : Int
  data : D

/-- A file present in the cache directory: either unreadable/garbage
JSON (any such read error is treated as a miss by the source's bare
`except`) or a parsed record. -/
inductive CacheFile (D : Type)
  | corrupt
  | record (r : CacheRecord D)

/-- The cache directory: contents of the file for each model id. -/
def CacheState (D : Type) := String → Option (CacheFile D)

/-- Removal of one cache file (`cache_file.unlink()`). -/
def cacheErase {D : Type} (st : CacheState D) (model_id : String) : CacheState D :=
  fun k => if k = model_id then none else st k

/-- `ModelManager.CACHE_EXPIRY = timedelta(days=7)`, in seconds. -/
def CACHE_EXPIRY : Int := 7 * 86400

/-- `ModelManager._get_cached_model_info`, returning the value (if any)
and the cache directory afterwards.  `now` is `datetime.now()`. -/
def get_cached_model_info {D : Type} (st : CacheState D) (now : Int)
    (model_id : String) : Option D × CacheState D :=
  match st model_id with
  | none => (none, st)
  | some CacheFile.corrupt => (none, st)
  | some (CacheFile.record r) =>
    if CACHE_EXPIRY < now - r.timestamp then (none, cacheErase st model_id)
    else (some r.data, st)

/-- `ModelManager._save_model_info_to_cache` (the modeled filesystem
write succeeds; a failing write is swallowed by the source and leaves
the state unchanged). -/
def save_model_info_to_cache {D : Type} (st : CacheState D) (now : Int)
    (model_id : String) (data : D) : CacheState D :=
  fun k => if k = model_id then some (CacheFile.record ⟨now, data⟩) else st k

/-! ## Download engine (`ModelManager.download_model`)

The streaming transfer is driven by the sequence of events produced by
`response.iter_content`: each event is either a received chunk of some
byte size or the read/write error that aborts the iteration.  The
filesystem fragment the function touches is the pair of files at the
destination path and at the temporary path (`dest_path.with_suffix('.tmp')`),
recorded by size.  The directory `mkdir(parents=True, exist_ok=True)`
and the `open(temp_path, 'wb')` are modeled as succeeding; progress
printing has no observable effect here.  A Python exception escaping
the function is an `Except.error` result. -/

/-- One step of `response.iter_content(block_size)`. -/
inductive ChunkEvent
  | chunk (size : Nat)
  | streamError
  deriving DecidableEq

/-- The HTTP response obtained by `requests.get(url, stream=True)`. -/
structure HttpResponse where
  status : Nat
  contentLength : Option Nat
  events : List ChunkEvent

/-- Effect outcomes for one `download_model` call: whether the
`requests` module imported, the result of `requests.get` (`none` means
the call raised — connection failure, timeout), and whether the final
`temp_path.rename(dest_path)` succeeds. -/
structure DownloadEnv where
  requestsAvailable : Bool
  response : Option HttpResponse
  renameOk : Bool

/-- Sizes of the files at the destination path and at the temporary
path (`none` = no such file). -/
structure FS where
  dest : Option Nat
  temp : Option Nat
  deriving DecidableEq

/-- Total bytes written by the `for chunk in response.iter_content(...)`
loop, or `none` when a stream event raises mid-loop (empty chunks are
skipped by `if chunk:` and contribute no bytes). -/
def streamChunks : List ChunkEvent → Nat → Option Nat
  | [], written => some written
  | ChunkEvent.chunk n :: evs, written => streamChunks evs (written + n)
  | ChunkEvent.streamError :: _, _ => none

/-- `ModelManager.download_model`.  The `except Exception` handler's
cleanup reads `temp_path`, a local assigned only after the response has
been obtained and checked; when the handler runs for an earlier failure
(connection error, HTTP error status) that read raises
`UnboundLocalError`, which propagates out of the function — hence the
`Except.error` results on those paths. -/
def download_model (env : DownloadEnv) (fs : FS) : Except String Bool × FS :=
  if env.requestsAvailable = false then (Except.ok false, fs)
  else
    match env.response with
    | none =>
      (Except.error "UnboundLocalError: temp_path referenced before assignment", fs)
    | some resp =>
      if 400 ≤ resp.status ∧ resp.status < 600 then
        (Except.error "UnboundLocalError: temp_path referenced before assignment", fs)
      else
        match streamChunks resp.events 0 with
        | none =>
          (Except.ok false, { fs with temp := none })
        | some written =>
          if env.renameOk then (Except.ok true, { dest := some written, temp := none })
          else (Except.ok false, { fs with temp := none })

/-! ## Validation driver (`ModelManager.validate_and_download_model`) -/

/-- Python `str.strip().lower()` for the interactive answer (ASCII
case folding; the answers compared against are `''` and `'y'`). -/
def stripLower (s : String) : String :=
  String.mk
    ((((s.toList.dropWhile Char.isWhitespace).reverse.dropWhile
        Char.isWhitespace).reverse).map Char.toLower)

/-- Effect outcomes for one `validate_and_download_model` call, beyond
the arguments of the Python method itself. -/
structure ValidateEnv where
  /-- The sorted-by-nothing enumeration `list(model_dir.glob("*.gguf"))`
  of GGUF files already under the resolved directory (`[]` when the
  directory is missing, not a directory, or empty). -/
  localGgufFiles : List String
  /-- Result of `query_huggingface_model` (`none`: not found or
  registry unreachable); only its presence matters downstream. -/
  hfModelFound : Bool
  /-- Result of `find_gguf_files` on the found model. -/
  ggufFiles : List GGUFFileEntry
  /-- Probe inputs consumed by `recommend_quantization`. -/
  system : SystemEnv
  /-- Whether `sys.stdin.isatty()`. -/
  stdinIsATty : Bool
  /-- What `input()` returns when the confirmation prompt is shown. -/
  userResponse : String
  /-- Outcome of the inner `self.download_model(...)` call, when it is
  reached (`Except.error` = that call raised). -/
  downloadResult : Except String Bool

/-- Result of `validate_and_download_model`: the returned pair, plus an
instrumentation flag recording whether `download_model` was invoked. -/
structure ValidateResult where
  success : Bool
  path : String
  downloadInvoked : Bool
  deriving DecidableEq

/-- `ModelManager.validate_and_download_model`.  An `Except.error`
outcome models an exception propagating out (only possible from the
inner `download_model` call, see `download_model`). -/
def validate_and_download_model (home : String) (envPath : Option String)
    (config : Config) (venv : ValidateEnv) (model_name : String) (force : Bool) :
    Except String ValidateResult :=
  let model_dir := get_model_path home envPath config model_name
  match venv.localGgufFiles with
  | f :: _ => Except.ok ⟨true, model_dir ++ "/" ++ f, false⟩
  | [] =>
    if venv.hfModelFound = false then Except.ok ⟨false, model_dir, false⟩
    else if venv.ggufFiles.isEmpty then Except.ok ⟨false, model_dir, false⟩
    else
      match recommend_quantization venv.system venv.ggufFiles with
      | none => Except.ok ⟨false, model_dir, false⟩
      | some recommended =>
        let proceed : Bool :=
          if force = false ∧ venv.stdinIsATty = true then
            let response := stripLower venv.userResponse
            if response ≠ "" ∧ response ≠ "y" then false else true
          else if force = false then false
          else true
        if proceed then
          let model_file_path := model_dir ++ "/" ++ recommended.filename
          match venv.downloadResult with
          | Except.error e => Except.error e
          | Except.ok ok => Except.ok ⟨ok, model_file_path, true⟩
        else Except.ok ⟨false, model_dir, false⟩

end ModelManager

namespace GGUFMetadataReader

/-! ## Binary metadata parser (`GGUFMetadataReader`)

A file is a `List Nat` of byte values (each `< 256` for real files).
`struct.unpack('<..', f.read(n))` raises `struct.error` when fewer than
`n` bytes remain, so the fixed-width readers return `Except.error`
there; a string payload read (`f.read(length)`) just returns the bytes
that are left. -/

/-- Little-endian value of a byte list (first byte least significant),
as computed by `struct.unpack('<I'/'<Q'/...)`. -/
def combineLE : List Nat → Nat
  | [] => 0
  | b :: bs => b + 256 * combineLE bs

/-- The `w` little-endian bytes of `n` (used to build concrete test
files and to state round-trip lemmas). -/
def bytesLE : Nat → Nat → List Nat
  | 0, _ => []
  | w + 1, n => n % 256 :: bytesLE w (n / 256)

/-- `struct.unpack` of one `w`-byte little-endian unsigned field from
the front of the stream. -/
def readLE (w : Nat) (l : List Nat) : Except String (Nat × List Nat) :=
  if w ≤ l.length then Except.ok (combineLE (l.take w), l.drop w)
  else Except.error ("unpack requires a buffer of " ++ toString w ++ " bytes")

/-- Two's-complement reinterpretation performed by the signed format
characters (`'b'`, `'<h'`, `'<i'`, `'<q'`): `w` is the byte width. -/
def toSigned (w : Nat) (v : Nat) : Int :=
  if v < 2 ^ (8 * w - 1) then (v : Int) else (v : Int) - 2 ^ (8 * w)

/-- Classification of a UTF-8 start byte: `none` = invalid start;
`some (k, lo, hi)` = `k` continuation bytes follow, the first of which
must lie in `[lo, hi]` (subsequent ones in `[0x80, 0xBF]`). -/
def utf8Start (b : Nat) : Option (Nat × Nat × Nat) :=
  if b < 0x80 then some (0, 0, 0)
  else if 0xC2 ≤ b ∧ b ≤ 0xDF then some (1, 0x80, 0xBF)
  else if b = 0xE0 then some (2, 0xA0, 0xBF)
  else if 0xE1 ≤ b ∧ b ≤ 0xEC then some (2, 0x80, 0xBF)
  else if b = 0xED then some (2, 0x80, 0x9F)
  else if 0xEE ≤ b ∧ b ≤ 0xEF then some (2, 0x80, 0xBF)
  else if b = 0xF0 then some (3, 0x90, 0xBF)
  else if 0xF1 ≤ b ∧ b ≤ 0xF3 then some (3, 0x80, 0xBF)
  else if b = 0xF4 then some (3, 0x80, 0x8F)
  else none

/-- Whether `c` may appear as a (non-first) continuation byte. -/
def isCont (c : Nat) : Bool := 0x80 ≤ c ∧ c ≤ 0xBF

/-- Code point assembled from a start byte and its continuations. -/
def utf8Point (b : Nat) (conts : List Nat) : Nat :=
  match conts with
  | [] => b
  | [c1] => (b - 0xC0) * 64 + (c1 - 0x80)
  | [c1, c2] => (b - 0xE0) * 4096 + (c1 - 0x80) * 64 + (c2 - 0x80)
  | [c1, c2, c3] =>
    (b - 0xF0) * 262144 + (c1 - 0x80) * 4096 + (c2 - 0x80) * 64 + (c3 - 0x80)
  | _ => 0

/-- Collect `k` continuation bytes for a multi-byte sequence, the first
constrained to `[lo, hi]`, the rest to `[0x80, 0xBF]`.  `Sum.inl
(conts, rest)` on success; `Sum.inr rest` when an offending byte is met
(it stays in `rest` for re-examination) or the input ends (`rest = []`):
the bytes consumed so far form CPython's maximal-subpart error range. -/
def grabConts : Nat → Nat → Nat → List Nat → (List Nat × List Nat) ⊕ List Nat
  | _, _, 0, l => Sum.inl ([], l)
  | _, _, _ + 1, [] => Sum.inr []
  | lo, hi, k + 1, c :: cs =>
    if c < lo ∨ hi < c then Sum.inr (c :: cs)
    else
      match grabConts 0x80 0xBF k cs with
      | Sum.inl (conts, rest) => Sum.inl (c :: conts, rest)
      | Sum.inr rest => Sum.inr rest

/-- CPython's UTF-8 decoder with an error handler, over byte lists.
`rep` is what the handler contributes for one invalid maximal subpart:
`[]` for `errors='ignore'`, `[U+FFFD]` for `errors='replace'`.  The
first argument is fuel; at least one byte is consumed per step, so
`l.length` suffices. -/
def decodeUtf8Aux (rep : List Char) : Nat → List Nat → List Char
  | 0, _ => []
  | _, [] => []
  | fuel + 1, b :: rest =>
    match utf8Start b with
    | none => rep ++ decodeUtf8Aux rep fuel rest
    | some (k, lo, hi) =>
      match grabConts lo hi k rest with
      | Sum.inl (conts, rest1) =>
        Char.ofNat (utf8Point b conts) :: decodeUtf8Aux rep fuel rest1
      | Sum.inr rest1 => rep ++ decodeUtf8Aux rep fuel rest1

/-- `bytes.decode('utf-8', errors='ignore')`: invalid byte sequences
are dropped. -/
def decodeUtf8Ignore (l : List Nat) : String :=
  String.mk (decodeUtf8Aux [] l.length l)

/-- `bytes.decode('utf-8', errors='replace')`: invalid byte sequences
become U+FFFD.  Modelled from the spec: the specification's reading of
`_read_string` ("invalid byte sequences are replaced"), kept for
comparison with the source's `errors='ignore'`. -/
def decodeUtf8Replace (l : List Nat) : String :=
  String.mk (decodeUtf8Aux ['�'] l.length l)

/-- `GGUFMetadataReader._read_string`: an unsigned little-endian 64-bit
length, then that many raw bytes (`f.read(length)` silently returns
fewer at end of file), decoded leniently. -/
def read_string (l : List Nat) : Except String (String × List Nat) :=
  match readLE 8 l with
  | Except.error e => Except.error e
  | Except.ok (length, rest) =>
    Except.ok (decodeUtf8Ignore (rest.take length), rest.drop length)

/-- `_read_string` as the specification words it (invalid byte
sequences replaced, not dropped), for comparison with `read_string`. -/
def read_string_spec (l : List Nat) : Except String (String × List Nat) :=
  match readLE 8 l with
  | Except.error e => Except.error e
  | Except.ok (length, rest) =>
    Except.ok (decodeUtf8Replace (rest.take length), rest.drop length)

/-- A Python value stored in `self.metadata`.  Integer types of every
width share `num`; booleans stay distinct (Python `True`/`False`);
floats keep their raw little-endian bytes (IEEE semantics are not
needed by any consulted key and are not modeled); `headerRec` is the
dict stored under `'_header'`. -/
inductive GGUFValue
  | num (n : Int)
  | boolean (b : Bool)
  | str (s : String)
  | floatBits (bytes : List Nat)
  | headerRec (version tensor_count metadata_kv_count : Nat)
  deriving DecidableEq

/-- `GGUFMetadataReader._read_value`. -/
def read_value (value_type : Nat) (l : List Nat) :
    Except String (GGUFValue × List Nat) :=
  if value_type = 0 then  -- GGUF_TYPE_UINT8
    (readLE 1 l).map (fun (v, r) => (GGUFValue.num v, r))
  else if value_type = 1 then  -- GGUF_TYPE_INT8
    (readLE 1 l).map (fun (v, r) => (GGUFValue.num (toSigned 1 v), r))
  else if value_type = 2 then  -- GGUF_TYPE_UINT16
    (readLE 2 l).map (fun (v, r) => (GGUFValue.num v, r))
  else if value_type = 3 then  -- GGUF_TYPE_INT16
    (readLE 2 l).map (fun (v, r) => (GGUFValue.num (toSigned 2 v), r))
  else if value_type = 4 then  -- GGUF_TYPE_UINT32
    (readLE 4 l).map (fun (v, r) => (GGUFValue.num v, r))
  else if value_type = 5 then  -- GGUF_TYPE_INT32
    (readLE 4 l).map (fun (v, r) => (GGUFValue.num (toSigned 4 v), r))
  else if value_type = 6 then  -- GGUF_TYPE_FLOAT32
    if 4 ≤ l.length then Except.ok (GGUFValue.floatBits (l.take 4), l.drop 4)
    else Except.error "unpack requires a buffer of 4 bytes"
  else if value_type = 7 then  -- GGUF_TYPE_BOOL
    (readLE 1 l).map (fun (v, r) => (GGUFValue.boolean (v ≠ 0), r))
  else if value_type = 8 then  -- GGUF_TYPE_STRING
    (read_string l).map (fun (s, r) => (GGUFValue.str s, r))
  else if value_type = 9 then  -- GGUF_TYPE_ARRAY
    -- reads only the element type and count; the element data is NOT
    -- skipped by the source, so the cursor stays right after the count
    match readLE 4 l with
    | Except.error e => Except.error e
    | Except.ok (_, r1) =>
      (readLE 8 r1).map (fun (n, r2) =>
        (GGUFValue.str ("[Array of " ++ toString n ++ " items]"), r2))
  else if value_type = 10 then  -- GGUF_TYPE_UINT64
    (readLE 8 l).map (fun (v, r) => (GGUFValue.num v, r))
  else if value_type = 11 then  -- GGUF_TYPE_INT64
    (readLE 8 l).map (fun (v, r) => (GGUFValue.num (toSigned 8 v), r))
  else if value_type = 12 then  -- GGUF_TYPE_FLOAT64
    if 8 ≤ l.length then Except.ok (GGUFValue.floatBits (l.take 8), l.drop 8)
    else Except.error "unpack requires a buffer of 8 bytes"
  else
    Except.ok (GGUFValue.str ("[Unknown type " ++ toString value_type ++ "]"), l)

/-- The metadata mapping, with Python-dict insertion order: assignment
to an existing key overwrites in place, a new key is appended. -/
abbrev Metadata := List (String × GGUFValue)

/-- `self.metadata[key] = value`. -/
def dictInsert (m : Metadata) (k : String) (v : GGUFValue) : Metadata :=
  if (List.any m (fun e => e.1 = k)) then
    List.map (fun e => if e.1 = k then (k, v) else e) m
  else m ++ [(k, v)]

/-- `self.metadata.get(key)`. -/
def dictGet (m : Metadata) (k : String) : Option GGUFValue :=
  (List.find? (fun e => e.1 = k) m).map (fun e => e.2)

/-- The `for _ in range(metadata_kv_count)` loop of `read_metadata`:
read a string key, a 4-byte type tag and a typed value, `count` times. -/
def read_kv_pairs : Nat → List Nat → Metadata → Except String Metadata
  | 0, _, m => Except.ok m
  | count + 1, l, m =>
    match read_string l with
    | Except.error e => Except.error e
    | Except.ok (key, l1) =>
      match readLE 4 l1 with
      | Except.error e => Except.error e
      | Except.ok (value_type, l2) =>
        match read_value value_type l2 with
        | Except.error e => Except.error e
        | Except.ok (value, l3) => read_kv_pairs count l3 (dictInsert m key value)

/-- Zero-padded 8-digit lowercase hex, as in the f-string
`f"{magic:08x}"` (`Nat.toDigits 16` yields lowercase digits). -/
def hex8 (n : Nat) : String :=
  let ds := Nat.toDigits 16 n
  String.mk (List.replicate (8 - ds.length) '0' ++ ds)

/-- The header checks and key-value loop of
`GGUFMetadataReader.read_metadata`, producing the raw metadata mapping
or the message of the exception that aborted the parse. -/
def parseGGUF (contents : List Nat) : Except String Metadata :=
  match readLE 4 contents with
  | Except.error e => Except.error e
  | Except.ok (magic, l1) =>
    if magic ≠ 0x46554747 then
      Except.error ("Invalid GGUF magic: " ++ hex8 magic)
    else
      match readLE 4 l1 with
      | Except.error e => Except.error e
      | Except.ok (version, l2) =>
        if version < 2 then
          Except.error ("Unsupported GGUF version: " ++ toString version)
        else
          match readLE 8 l2 with
          | Except.error e => Except.error e
          | Except.ok (tensor_count, l3) =>
            match readLE 8 l3 with
            | Except.error e => Except.error e
            | Except.ok (metadata_kv_count, l4) =>
              read_kv_pairs metadata_kv_count l4
                [("_header",
                  GGUFValue.headerRec version tensor_count metadata_kv_count)]

/-- `quant_map` of `_extract_model_info`, as a lookup on the integer
codes (`.get` on the Python dict literal). -/
def quant_map (n : Int) : Option String :=
  if n = 0 then some "F32"
  else if n = 1 then some "F16"
  else if n = 2 then some "Q4_0"
  else if n = 3 then some "Q4_1"
  else if n = 7 then some "Q8_0"
  else if n = 8 then some "Q5_0"
  else if n = 9 then some "Q5_1"
  else if n = 10 then some "Q2_K"
  else if n = 11 then some "Q3_K_S"
  else if n = 12 then some "Q3_K_M"
  else if n = 13 then some "Q3_K_L"
  else if n = 14 then some "Q4_K_S"
  else if n = 15 then some "Q4_K_M"
  else if n = 16 then some "Q5_K_S"
  else if n = 17 then some "Q5_K_M"
  else if n = 18 then some "Q6_K"
  else none

/-- How the f-string `f"Unknown ({file_type})"` renders the stored
value: Python prints integers in decimal and strings as themselves;
the float and dict renderings (never produced by a well-formed
`general.file_type`) are abstracted to fixed markers. -/
def pyFormatValue : GGUFValue → String
  | GGUFValue.num n => toString n
  | GGUFValue.boolean b => if b then "True" else "False"
  | GGUFValue.str s => s
  | GGUFValue.floatBits _ => "<float>"
  | GGUFValue.headerRec _ _ _ => "<dict>"

/-- `quant_map.get(file_type, f"Unknown ({file_type})")`.  Python's
`True == 1` and `False == 0` make boolean keys hit the `F16`/`F32`
entries of the dict. -/
def quantizationLabel (file_type : GGUFValue) : String :=
  match file_type with
  | GGUFValue.num n =>
    match quant_map n with
    | some q => q
    | none => "Unknown (" ++ toString n ++ ")"
  | GGUFValue.boolean b => if b then "F16" else "F32"
  | v => "Unknown (" ++ pyFormatValue v ++ ")"

/-- The success record built by `_extract_model_info`.  `file_size_gb`
is `st_size / 1024**3` as an exact rational (IEEE rounding of the
Python float is not modeled; no consulted property depends on it). -/
structure ModelInfo where
  architecture : GGUFValue
  name : GGUFValue
  quantization : String
  file_type : GGUFValue
  context_length : Option GGUFValue
  parameters : List (String × Option GGUFValue)
  file_size_gb : ℚ
  deriving DecidableEq

/-- `GGUFMetadataReader._extract_model_info`.  `fileSizeBytes` is the
`stat().st_size` of the file (`none` when `stat` raises, in which case
the source stores `0`). -/
def extract_model_info (metadata : Metadata) (fileSizeBytes : Option Nat) :
    ModelInfo :=
  let file_type := (dictGet metadata "general.file_type").getD (GGUFValue.num (-1))
  let quantization := quantizationLabel file_type
  let architecture :=
    (dictGet metadata "general.architecture").getD (GGUFValue.str "unknown")
  let name := (dictGet metadata "general.name").getD (GGUFValue.str "unknown")
  let file_size_gb : ℚ :=
    match fileSizeBytes with
    | some sz => (sz : ℚ) / (1024 ^ 3 : ℚ)
    | none => 0
  let base : ModelInfo :=
    { architecture := architecture, name := name, quantization := quantization,
      file_type := file_type, context_length := none, parameters := [],
      file_size_gb := file_size_gb }
  let fillArch (arch : String) : ModelInfo :=
    { base with
      context_length := dictGet metadata (arch ++ ".context_length"),
      parameters :=
        [("block_count", dictGet metadata (arch ++ ".block_count")),
         ("embedding_length", dictGet metadata (arch ++ ".embedding_length")),
         ("feed_forward_length", dictGet metadata (arch ++ ".feed_forward_length")),
         ("attention_heads", dictGet metadata (arch ++ ".attention.head_count")),
         ("attention_heads_kv", dictGet metadata (arch ++ ".attention.head_count_kv"))] }
  if architecture = GGUFValue.str "llama" then fillArch "llama"
  else if architecture = GGUFValue.str "mistral" then fillArch "mistral"
  else base

/-- What `GGUFMetadataReader.read_metadata` returns: the extracted info
record, or the minimal error record `{'error': ..., 'file': ...,
'architecture': 'unknown'}`. -/
inductive MetadataResult
  | info (i : ModelInfo)
  | errorRecord (error : String) (file : String) (architecture : String)
  deriving DecidableEq

/-- The info record, when the parse succeeded. -/
def MetadataResult.getInfo : MetadataResult → Option ModelInfo
  | MetadataResult.info i => some i
  | MetadataResult.errorRecord _ _ _ => none

/-- `GGUFMetadataReader.read_metadata`.  `openResult` is the outcome of
`open(self.file_path, 'rb')` followed by reading: `Except.error` when
the open itself raised (missing file, permissions), carrying the
exception text; all bytes of the file otherwise. -/
def read_metadata (file_path : String) (openResult : Except String (List Nat))
    (fileSizeBytes : Option Nat) : MetadataResult :=
  match openResult with
  | Except.error e => MetadataResult.errorRecord e file_path "unknown"
  | Except.ok contents =>
    match parseGGUF contents with
    | Except.error e => MetadataResult.errorRecord e file_path "unknown"
    | Except.ok metadata =>
      MetadataResult.info (extract_model_info metadata fileSizeBytes)

/-- A GGUF-encoded string: 64-bit length then the raw (ASCII here)
bytes.  Used to build the concrete minimal container below. -/
def ggufString (s : String) : List Nat :=
  bytesLE 8 s.length ++ List.map Char.toNat s.toList

/-- The well-formed minimal container of the specification's test:
magic `GGUF`, version 3, no tensors, one metadata entry
`general.architecture = "llama"` (string type tag 8). -/
def minimalContainer : List Nat :=
  bytesLE 4 0x46554747 ++ bytesLE 4 3 ++ bytesLE 8 0 ++ bytesLE 8 1 ++
    ggufString "general.architecture" ++ bytesLE 4 8 ++ ggufString "llama"

end GGUFMetadataReader

/-! ## Supporting lemmas -/

open ModelManager GGUFMetadataReader

theorem breakSlash_of_not_mem (a : List Char) : '/' ∉ a → breakSlash a = none := by
  induction a with
  | nil => intro _; rfl
  | cons c cs ih =>
    intro h
    have hc : ¬ c = '/' := by intro hh; exact h (by simp [hh])
    have hcs : '/' ∉ cs := by intro hm; exact h (List.mem_cons_of_mem _ hm)
    simp [breakSlash, hc, ih hcs]

theorem breakSlash_append (a b : List Char) :
    '/' ∉ a → breakSlash (a ++ '/' :: b) = some (a, b) := by
  induction a with
  | nil => intro _; simp [breakSlash]
  | cons c cs ih =>
    intro h
    have hc : ¬ c = '/' := by intro hh; exact h (by simp [hh])
    have hcs : '/' ∉ cs := by intro hm; exact h (List.mem_cons_of_mem _ hm)
    simp [breakSlash, hc, ih hcs]

theorem data_append_slash (a b : String) :
    (a ++ "/" ++ b).data = a.data ++ '/' :: b.data := by
  rw [String.data_append, String.data_append]
  simp

theorem splitFirstSlash_append (a b : String) (h : '/' ∉ a.data) :
    splitFirstSlash (a ++ "/" ++ b) = some (a, b) := by
  unfold splitFirstSlash
  show (match breakSlash (a ++ "/" ++ b).data with
    | some (x, y) => some (String.mk x, String.mk y)
    | none => none) = some (a, b)
  rw [data_append_slash, breakSlash_append a.data b.data h]

theorem splitFirstSlash_of_not_mem (s : String) (h : '/' ∉ s.data) :
    splitFirstSlash s = none := by
  unfold splitFirstSlash
  show (match breakSlash s.data with
    | some (x, y) => some (String.mk x, String.mk y)
    | none => none) = none
  rw [breakSlash_of_not_mem s.data h]

theorem findPreferred_eq_none (prefs : List String) (files : List GGUFFileEntry) :
    (∀ q ∈ prefs, ∀ f ∈ files, f.quantization ≠ some q) →
    findPreferred prefs files = none := by
  induction prefs with
  | nil => intro _; rfl
  | cons q qs ih =>
    intro h
    have hfind : files.find? (fun f => f.quantization = some q) = none := by
      rw [List.find?_eq_none]
      intro f hf
      simpa using h q (by simp) f hf
    simp only [findPreferred, hfind]
    exact ih (fun q' hq' f hf => h q' (List.mem_cons_of_mem _ hq') f hf)

theorem streamChunks_append_error (pre : List ModelManager.ChunkEvent) :
    ∀ (post : List ModelManager.ChunkEvent) (w : Nat),
    streamChunks (pre ++ ModelManager.ChunkEvent.streamError :: post) w = none := by
  induction pre with
  | nil => intro post w; rfl
  | cons e evs ih =>
    intro post w
    cases e with
    | chunk n => simpa [streamChunks] using ih post (w + n)
    | streamError => rfl

theorem bytesLE_length (w n : Nat) : (bytesLE w n).length = w := by
  induction w generalizing n with
  | zero => rfl
  | succ w ih => simp [bytesLE, ih]

theorem combineLE_bytesLE (w n : Nat) : combineLE (bytesLE w n) = n % 256 ^ w := by
  induction w generalizing n with
  | zero => simp [bytesLE, combineLE, Nat.mod_one]
  | succ w ih =>
    simp only [bytesLE, combineLE, ih]
    rw [pow_succ', Nat.mod_mul]

theorem readLE_bytesLE (w n : Nat) (rest : List Nat) :
    readLE w (bytesLE w n ++ rest) = Except.ok (n % 256 ^ w, rest) := by
  unfold readLE
  rw [if_pos]
  · rw [List.take_left' (bytesLE_length w n), List.drop_left' (bytesLE_length w n),
      combineLE_bytesLE]
  · rw [List.length_append, bytesLE_length]
    omega

/-! ## Claim theorems -/

/-- C1: the claim says `download_model` returns an explicit failure on
any error at any stage.  It does not: when `requests.get` raises
(connection failure) or `raise_for_status` raises (HTTP error status),
the `except` handler's cleanup reads the local `temp_path`, which is
assigned only later in the `try` block — an `UnboundLocalError` is
raised past the function boundary instead of `False` being returned.
The handler's own structure (catch everything, clean up, `return
False`) shows that returning failure was the intent, so this is a bug
in the code, not in the claim. -/
theorem download_model_raises_before_temp_assignment :
    download_model ⟨true, none, true⟩ ⟨none, none⟩ =
      (Except.error "UnboundLocalError: temp_path referenced before assignment",
        ({ dest := none, temp := none } : FS)) ∧
    download_model ⟨true, some ⟨404, some 1000, []⟩, true⟩ ⟨none, none⟩ =
      (Except.error "UnboundLocalError: temp_path referenced before assignment",
        ({ dest := none, temp := none } : FS)) :=
  ⟨rfl, rfl⟩

/-- C2 counterexample: four concrete inputs where `get_model_path` (the
source) and `get_model_path_spec` (the claim's words) disagree: the
fixed default is `<home>/.agentyard/models`, not `<home>/agentyard/models`;
a per-model override and a `models_dir` beginning with `~` are expanded,
not used verbatim; an environment override set to the empty string is
ignored rather than used. -/
theorem get_model_path_spec_deviation :
    get_model_path "/home/u" none ⟨fun _ => none, none⟩ "test/model" ≠
      get_model_path_spec "/home/u" none ⟨fun _ => none, none⟩ "test/model" ∧
    get_model_path "/home/u" none
        ⟨fun n => if n = "m" then some "~/w.gguf" else none, none⟩ "m" ≠
      get_model_path_spec "/home/u" none
        ⟨fun n => if n = "m" then some "~/w.gguf" else none, none⟩ "m" ∧
    get_model_path "/home/u" (some "") ⟨fun _ => none, some "/d"⟩ "test/model" ≠
      get_model_path_spec "/home/u" (some "") ⟨fun _ => none, some "/d"⟩ "test/model" ∧
    get_model_path "/home/u" none ⟨fun _ => none, some "~/md"⟩ "test/model" ≠
      get_model_path_spec "/home/u" none ⟨fun _ => none, some "~/md"⟩ "test/model" := by
  refine ⟨?_, ?_, ?_, ?_⟩ <;> decide

/-- C2 (amended): the per-model override is returned after user-home
expansion; otherwise the result is `base/namespace/name` where the base
directory is the `AGENTYARD_MODELS_PATH` override when set to a
non-empty value, else the configuration's `models_dir`, else the fixed
default `<home>/.agentyard/models` (the two configured sources also
user-home expanded); an identifier containing `/` is split exactly at
its first `/` into namespace and name, and one without `/` gets the
sentinel namespace `"default"`. -/
theorem get_model_path_resolution (home : String) (envPath : Option String)
    (config : Config) (model_name : String) :
    (∀ p, config.modelOverride model_name = some p →
      get_model_path home envPath config model_name = expanduser home p) ∧
    (config.modelOverride model_name = none →
      get_model_path home envPath config model_name =
        baseDirOf home envPath config ++ "/" ++ namespaceOf model_name ++ "/" ++
          modelOf model_name) ∧
    (∀ e, envPath = some e → e ≠ "" →
      baseDirOf home envPath config = expanduser home e) ∧
    (envPath = none ∨ envPath = some "" →
      ∀ d, config.models_dir = some d →
        baseDirOf home envPath config = expanduser home d) ∧
    (envPath = none ∨ envPath = some "" → config.models_dir = none →
      baseDirOf home envPath config = home ++ "/.agentyard/models") ∧
    (∀ a b : String, '/' ∉ a.data →
      namespaceOf (a ++ "/" ++ b) = a ∧ modelOf (a ++ "/" ++ b) = b) ∧
    ('/' ∉ model_name.data →
      namespaceOf model_name = "default" ∧ modelOf model_name = model_name) := by
  refine ⟨?_, ?_, ?_, ?_, ?_, ?_, ?_⟩
  · intro p hp
    simp [get_model_path, hp]
  · intro h
    simp [get_model_path, h]
  · intro e he hne
    subst he
    simp [baseDirOf, hne]
  · intro he d hd
    rcases he with he | he <;> subst he <;> simp [baseDirOf, hd]
  · intro he hd
    rcases he with he | he <;> subst he <;> simp [baseDirOf, hd]
  · intro a b h
    exact ⟨by unfold namespaceOf; rw [splitFirstSlash_append a b h],
      by unfold modelOf; rw [splitFirstSlash_append a b h]⟩
  · intro h
    exact ⟨by unfold namespaceOf; rw [splitFirstSlash_of_not_mem _ h],
      by unfold modelOf; rw [splitFirstSlash_of_not_mem _ h]⟩

/-- C2 witness: the amended resolution theorem applied at concrete
inputs (environment override present; slash split; no-slash sentinel). -/
theorem get_model_path_resolution_witness :
    get_model_path "/home/u" (some "/custom/path") ⟨fun _ => none, none⟩
      "test/model" = "/custom/path/test/model" ∧
    namespaceOf "test/model" = "test" ∧
    modelOf "test/model" = "model" ∧
    namespaceOf "standalone" = "default" := by
  have T := get_model_path_resolution "/home/u" (some "/custom/path")
    ⟨fun _ => none, none⟩ "test/model"
  have T2 := get_model_path_resolution "/home/u" none ⟨fun _ => none, none⟩
    "standalone"
  have hsplit := T.2.2.2.2.2.1 "test" "model" (by decide)
  have hbase := T.2.2.1 "/custom/path" rfl (by decide)
  have hmain := T.2.1 rfl
  have hnoslash := T2.2.2.2.2.2.2 (by decide)
  refine ⟨?_, ?_, ?_, ?_⟩
  · rw [hmain, hbase]
    decide
  · have h : ("test" ++ "/" ++ "model" : String) = "test/model" := by decide
    exact h ▸ hsplit.1
  · have h : ("test" ++ "/" ++ "model" : String) = "test/model" := by decide
    exact h ▸ hsplit.2
  · exact hnoslash.1

/-- C3: when a read/write error aborts the stream after the temporary
file was created, `download_model` deletes the temporary file, returns
`False`, and leaves nothing at the (previously absent) destination
path; when every chunk arrives it renames the temporary file onto the
destination and returns `True`. -/
theorem download_model_failure_cleanup (env : DownloadEnv) (fs : FS)
    (resp : HttpResponse)
    (hreq : env.requestsAvailable = true)
    (hresp : env.response = some resp)
    (hstatus : ¬(400 ≤ resp.status ∧ resp.status < 600))
    (hdest : fs.dest = none) :
    (∀ pre post, resp.events = pre ++ ModelManager.ChunkEvent.streamError :: post →
      download_model env fs =
        (Except.ok false, { dest := none, temp := none })) ∧
    (∀ w, streamChunks resp.events 0 = some w → env.renameOk = true →
      download_model env fs =
        (Except.ok true, { dest := some w, temp := none })) := by
  obtain ⟨ra, rsp, ren⟩ := env
  obtain ⟨d, t⟩ := fs
  simp only at hreq hresp hdest
  subst hreq hresp hdest
  constructor
  · intro pre post hev
    simp [download_model, hstatus, hev, streamChunks_append_error]
  · intro w hw hren
    simp only at hren
    subst hren
    simp [download_model, hstatus, hw]

/-- C3 witness: a stream error after 5 received bytes cleans up and
fails; two full chunks of 5 bytes succeed with a 10-byte destination
file. -/
theorem download_model_failure_cleanup_witness :
    download_model
      ⟨true, some ⟨200, some 10,
        [ModelManager.ChunkEvent.chunk 5, ModelManager.ChunkEvent.streamError]⟩, true⟩
      ⟨none, none⟩ = (Except.ok false, { dest := none, temp := none }) ∧
    download_model
      ⟨true, some ⟨200, some 10,
        [ModelManager.ChunkEvent.chunk 5, ModelManager.ChunkEvent.chunk 5]⟩, true⟩
      ⟨none, none⟩ = (Except.ok true, { dest := some 10, temp := none }) := by
  constructor
  · exact (download_model_failure_cleanup
      ⟨true, some ⟨200, some 10,
        [ModelManager.ChunkEvent.chunk 5, ModelManager.ChunkEvent.streamError]⟩, true⟩
      ⟨none, none⟩
      ⟨200, some 10, [ModelManager.ChunkEvent.chunk 5, ModelManager.ChunkEvent.streamError]⟩
      rfl rfl (by decide) rfl).1 [ModelManager.ChunkEvent.chunk 5] [] rfl
  · exact (download_model_failure_cleanup
      ⟨true, some ⟨200, some 10,
        [ModelManager.ChunkEvent.chunk 5, ModelManager.ChunkEvent.chunk 5]⟩, true⟩
      ⟨none, none⟩
      ⟨200, some 10, [ModelManager.ChunkEvent.chunk 5, ModelManager.ChunkEvent.chunk 5]⟩
      rfl rfl (by decide) rfl).2 10 rfl rfl

/-- C4: `read_metadata` never lets a parse failure escape: every error
outcome is the minimal record carrying the message, the file path and
`architecture = "unknown"`; in particular a truncated header, a wrong
magic constant, and a version below 2 each produce such a record. -/
theorem read_metadata_error_record :
    (∀ (fp : String) (openR : Except String (List Nat)) (fsz : Option Nat)
        (e f a : String),
      read_metadata fp openR fsz = MetadataResult.errorRecord e f a →
      f = fp ∧ a = "unknown") ∧
    (∀ (fp : String) (contents : List Nat) (fsz : Option Nat),
      contents.length < 4 →
      read_metadata fp (Except.ok contents) fsz =
        MetadataResult.errorRecord "unpack requires a buffer of 4 bytes" fp "unknown") ∧
    (∀ (fp : String) (contents : List Nat) (fsz : Option Nat),
      4 ≤ contents.length → combineLE (contents.take 4) ≠ 0x46554747 →
      read_metadata fp (Except.ok contents) fsz =
        MetadataResult.errorRecord
          ("Invalid GGUF magic: " ++ hex8 (combineLE (contents.take 4))) fp "unknown") ∧
    (∀ (fp : String) (contents l1 l2 : List Nat) (version : Nat) (fsz : Option Nat),
      readLE 4 contents = Except.ok (0x46554747, l1) →
      readLE 4 l1 = Except.ok (version, l2) →
      version < 2 →
      read_metadata fp (Except.ok contents) fsz =
        MetadataResult.errorRecord
          ("Unsupported GGUF version: " ++ toString version) fp "unknown") := by
  refine ⟨?_, ?_, ?_, ?_⟩
  · intro fp openR fsz e f a h
    cases openR with
    | error e0 =>
      simp [read_metadata] at h
      exact ⟨h.2.1.symm, h.2.2.symm⟩
    | ok contents =>
      cases hp : parseGGUF contents with
      | error e0 =>
        simp [read_metadata, hp] at h
        exact ⟨h.2.1.symm, h.2.2.symm⟩
      | ok md =>
        simp [read_metadata, hp] at h
  · intro fp contents fsz h
    have h4 : readLE 4 contents = Except.error "unpack requires a buffer of 4 bytes" := by
      unfold readLE
      rw [if_neg (by omega : ¬ 4 ≤ contents.length)]
      rfl
    simp [read_metadata, parseGGUF, h4]
  · intro fp contents fsz h hmagic
    have h4 : readLE 4 contents =
        Except.ok (combineLE (contents.take 4), contents.drop 4) := by
      unfold readLE
      rw [if_pos h]
    have hp : parseGGUF contents =
        Except.error ("Invalid GGUF magic: " ++ hex8 (combineLE (contents.take 4))) := by
      unfold parseGGUF
      rw [h4]
      simp only [if_pos hmagic]
    simp only [read_metadata, hp]
  · intro fp contents l1 l2 version fsz hm hv4 hv
    have hp : parseGGUF contents =
        Except.error ("Unsupported GGUF version: " ++ toString version) := by
      unfold parseGGUF
      rw [hm]
      simp only [if_neg (show ¬((0x46554747 : Nat) ≠ 0x46554747) from fun hne => hne rfl)]
      rw [hv4]
      simp only [if_pos hv]
    simp only [read_metadata, hp]

/-- C4 witness: a 3-byte file and a file with magic bytes
`48 47 55 46` each yield the minimal error record, with the path
preserved and `architecture = "unknown"`. -/
theorem read_metadata_error_record_witness :
    (read_metadata "bad.gguf" (Except.ok [1, 2, 3]) none =
      MetadataResult.errorRecord "unpack requires a buffer of 4 bytes"
        "bad.gguf" "unknown") ∧
    (read_metadata "bad.gguf" (Except.ok [0x48, 0x47, 0x55, 0x46, 0, 0]) none =
      MetadataResult.errorRecord
        ("Invalid GGUF magic: " ++ hex8 (combineLE ([0x48, 0x47, 0x55, 0x46, 0, 0].take 4)))
        "bad.gguf" "unknown") ∧
    (read_metadata "bad.gguf"
        (Except.ok (bytesLE 4 0x46554747 ++ bytesLE 4 1)) none =
      MetadataResult.errorRecord "Unsupported GGUF version: 1" "bad.gguf" "unknown") ∧
    (("bad.gguf" : String) = "bad.gguf" ∧ ("unknown" : String) = "unknown") := by
  have h1 := read_metadata_error_record.2.1 "bad.gguf" [1, 2, 3] none (by decide)
  have h2 := read_metadata_error_record.2.2.1 "bad.gguf"
    [0x48, 0x47, 0x55, 0x46, 0, 0] none (by decide) (by decide)
  have h3 := read_metadata_error_record.2.2.2 "bad.gguf"
    (bytesLE 4 0x46554747 ++ bytesLE 4 1) (bytesLE 4 1) [] 1 none rfl rfl (by decide)
  exact ⟨h1, h2, h3,
    read_metadata_error_record.1 "bad.gguf" (Except.ok [1, 2, 3]) none _ _ _ h1⟩

/-- C5: quantization selection is deterministic: an empty variant list
yields `none`; for capability `high` the preference list is exactly
`Q8_0, Q6_K, Q5_K_M`, so variants tagged `Q4_0` and `Q8_0` (either
order) select the `Q8_0` variant; and when no preferred tag of the
capability class matches any variant, the first variant in input order
is returned. -/
theorem recommend_quantization_deterministic :
    (∀ sys : SystemEnv, recommend_quantization sys [] = none) ∧
    QUANT_RECOMMENDATIONS "high" = ["Q8_0", "Q6_K", "Q5_K_M"] ∧
    (∀ (sys : SystemEnv) (v1 v2 : GGUFFileEntry),
      get_system_specs sys = "high" →
      v1.quantization = some "Q4_0" → v2.quantization = some "Q8_0" →
      recommend_quantization sys [v1, v2] = some v2 ∧
      recommend_quantization sys [v2, v1] = some v2) ∧
    (∀ (sys : SystemEnv) (f0 : GGUFFileEntry) (files : List GGUFFileEntry),
      (∀ f ∈ f0 :: files, ∀ q ∈ QUANT_RECOMMENDATIONS (get_system_specs sys),
        f.quantization ≠ some q) →
      recommend_quantization sys (f0 :: files) = some f0) := by
  refine ⟨fun sys => rfl, rfl, ?_, ?_⟩
  · intro sys v1 v2 hs h1 h2
    constructor <;>
      simp [recommend_quantization, hs, QUANT_RECOMMENDATIONS, findPreferred,
        List.find?, h1, h2]
  · intro sys f0 files h
    have hnone := findPreferred_eq_none
      (QUANT_RECOMMENDATIONS (get_system_specs sys)) (f0 :: files)
      (fun q hq f hf => h f hf q hq)
    simp [recommend_quantization, hnone]

/-- C5 witness: the selection theorem applied to a high-capability
machine (Darwin, 64 GiB) with concrete variants, and to a list whose
tags match no preference. -/
theorem recommend_quantization_deterministic_witness :
    recommend_quantization ⟨true, 64, true, true⟩
      [⟨"a.gguf", "a.gguf", 1, some "Q4_0", "u1"⟩,
       ⟨"b.gguf", "b.gguf", 2, some "Q8_0", "u2"⟩] =
      some ⟨"b.gguf", "b.gguf", 2, some "Q8_0", "u2"⟩ ∧
    recommend_quantization ⟨true, 64, true, true⟩
      [⟨"x.gguf", "x.gguf", 1, some "XX", "u3"⟩] =
      some ⟨"x.gguf", "x.gguf", 1, some "XX", "u3"⟩ := by
  constructor
  · exact (recommend_quantization_deterministic.2.2.1 ⟨true, 64, true, true⟩
      ⟨"a.gguf", "a.gguf", 1, some "Q4_0", "u1"⟩
      ⟨"b.gguf", "b.gguf", 2, some "Q8_0", "u2"⟩ (by decide) rfl rfl).1
  · exact recommend_quantization_deterministic.2.2.2 ⟨true, 64, true, true⟩
      ⟨"x.gguf", "x.gguf", 1, some "XX", "u3"⟩ [] (by decide)

/-- C6: the cache round-trips — `put` then `get` under the same clock
returns exactly the stored entry — and a stored record older than the
7-day TTL is reported as a miss and its backing file removed. -/
theorem cache_round_trip_and_expiry (D : Type) (st : CacheState D) (now : Int)
    (k : String) :
    (∀ d : D, get_cached_model_info (save_model_info_to_cache st now k d) now k =
      (some d, save_model_info_to_cache st now k d)) ∧
    (∀ r : CacheRecord D, st k = some (CacheFile.record r) →
      CACHE_EXPIRY < now - r.timestamp →
      get_cached_model_info st now k = (none, cacheErase st k) ∧
      cacheErase st k k = none) := by
  constructor
  · intro d
    have hself : now - now = 0 := sub_self now
    simp [get_cached_model_info, save_model_info_to_cache, CACHE_EXPIRY, hself]
  · intro r hr hexp
    refine ⟨?_, by simp [cacheErase]⟩
    unfold get_cached_model_info
    rw [hr]
    simp [hexp]

/-- C6 witness: round-trip of the value 42 under key `m`, and lazy
eviction of a record written at time 0 when read at time 700000 s
(about 8.1 days, past the 604800 s TTL). -/
theorem cache_round_trip_and_expiry_witness :
    (get_cached_model_info
      (save_model_info_to_cache
        (fun s => if s = "m" then some (CacheFile.record ⟨0, (7 : Nat)⟩) else none)
        700000 "m" 42) 700000 "m" =
      (some 42, save_model_info_to_cache
        (fun s => if s = "m" then some (CacheFile.record ⟨0, (7 : Nat)⟩) else none)
        700000 "m" 42)) ∧
    (get_cached_model_info
      (fun s => if s = "m" then some (CacheFile.record ⟨0, (7 : Nat)⟩) else none)
      700000 "m" =
      (none, cacheErase
        (fun s => if s = "m" then some (CacheFile.record ⟨0, (7 : Nat)⟩) else none) "m")) := by
  constructor
  · exact (cache_round_trip_and_expiry Nat
      (fun s => if s = "m" then some (CacheFile.record ⟨0, (7 : Nat)⟩) else none)
      700000 "m").1 42
  · exact ((cache_round_trip_and_expiry Nat
      (fun s => if s = "m" then some (CacheFile.record ⟨0, (7 : Nat)⟩) else none)
      700000 "m").2 ⟨0, (7 : Nat)⟩ rfl (by decide)).1

/-- C7: the well-formed minimal container with the single string entry
`general.architecture = "llama"` parses to a record with architecture
`"llama"` (and, the key being absent, quantization `"Unknown (-1)"`);
the quantization label comes from the fixed integer lookup table, with
`"Unknown (code)"` for every code outside it. -/
theorem read_metadata_minimal_container :
    (∀ (fp : String) (fsz : Option Nat) (contents l1 l2 l3 : List Nat)
        (version tensor_count : Nat),
      readLE 4 contents = Except.ok (0x46554747, l1) →
      readLE 4 l1 = Except.ok (version, l2) →
      2 ≤ version →
      readLE 8 l2 = Except.ok (tensor_count, l3) →
      readLE 8 l3 = Except.ok (1,
        ggufString "general.architecture" ++ (bytesLE 4 8 ++ ggufString "llama")) →
      (read_metadata fp (Except.ok contents) fsz).getInfo.map
        (fun i => (i.architecture, i.quantization)) =
        some (GGUFValue.str "llama", "Unknown (-1)")) ∧
    (∀ (n : Int) (q : String), quant_map n = some q →
      quantizationLabel (GGUFValue.num n) = q) ∧
    (∀ n : Int, quant_map n = none →
      quantizationLabel (GGUFValue.num n) = "Unknown (" ++ toString n ++ ")") := by
  refine ⟨?_, ?_, ?_⟩
  · intro fp fsz contents l1 l2 l3 version tensor_count hmg hver h2 htc hkv
    have hloop : read_kv_pairs 1
        (ggufString "general.architecture" ++ (bytesLE 4 8 ++ ggufString "llama"))
        [("_header", GGUFValue.headerRec version tensor_count 1)] =
        Except.ok [("_header", GGUFValue.headerRec version tensor_count 1),
          ("general.architecture", GGUFValue.str "llama")] := rfl
    have hp : parseGGUF contents =
        Except.ok [("_header", GGUFValue.headerRec version tensor_count 1),
          ("general.architecture", GGUFValue.str "llama")] := by
      unfold parseGGUF
      rw [hmg]
      simp only [if_neg (show ¬((0x46554747 : Nat) ≠ 0x46554747) from fun hne => hne rfl)]
      rw [hver]
      simp only [if_neg (show ¬(version < 2) from by omega)]
      simp only [htc]
      simp only [hkv]
      exact hloop
    simp only [read_metadata, hp]
    rfl
  · intro n q h
    simp [quantizationLabel, h]
  · intro n h
    simp [quantizationLabel, h]

/-- C7 witness: the minimal-container parse at a concrete path and
size, and the label lookup at the mapped code 7 and unmapped code 99. -/
theorem read_metadata_minimal_container_witness :
    (read_metadata "m.gguf" (Except.ok minimalContainer) (some 0)).getInfo.map
      (fun i => (i.architecture, i.quantization)) =
      some (GGUFValue.str "llama", "Unknown (-1)") ∧
    quantizationLabel (GGUFValue.num 7) = "Q8_0" ∧
    quantizationLabel (GGUFValue.num 99) = "Unknown (" ++ toString (99 : Int) ++ ")" :=
  ⟨read_metadata_minimal_container.1 "m.gguf" (some 0) minimalContainer
      (minimalContainer.drop 4) (minimalContainer.drop 8) (minimalContainer.drop 16)
      3 0 rfl rfl (by omega) rfl rfl,
    read_metadata_minimal_container.2.1 7 "Q8_0" rfl,
    read_metadata_minimal_container.2.2 99 rfl⟩

/-- C8 counterexample: the source decodes with `errors='ignore'`, so an
invalid byte is dropped, while the claim's "replaced" semantics
(`read_string_spec`, with U+FFFD) yields a different string on the
10-byte input encoding the 2-byte payload `FF 61`. -/
theorem read_string_ignore_vs_replace :
    read_string ([2, 0, 0, 0, 0, 0, 0, 0] ++ [0xFF, 0x61]) = Except.ok ("a", []) ∧
    read_string_spec ([2, 0, 0, 0, 0, 0, 0, 0] ++ [0xFF, 0x61]) = Except.ok ("�a", []) ∧
    ("a" : String) ≠ "�a" :=
  ⟨rfl, rfl, by decide⟩

/-- C8 (amended): `_read_string` reads an unsigned little-endian 64-bit
length and then that many raw bytes (fewer when the stream ends first)
and decodes them as UTF-8 leniently — invalid byte sequences are
dropped (ignored), not replaced, and decoding itself never fails. -/
theorem read_string_lenient (n : Nat) (payload rest : List Nat) :
    (payload.length = n → n < 2 ^ 64 →
      read_string (bytesLE 8 n ++ (payload ++ rest)) =
        Except.ok (decodeUtf8Ignore payload, rest)) ∧
    (payload.length ≤ n → n < 2 ^ 64 →
      read_string (bytesLE 8 n ++ payload) =
        Except.ok (decodeUtf8Ignore payload, [])) := by
  have h256 : (256 : Nat) ^ 8 = 2 ^ 64 := by norm_num
  constructor
  · intro hlen hn
    have h8 := readLE_bytesLE 8 n (payload ++ rest)
    rw [h256, Nat.mod_eq_of_lt hn] at h8
    have ht : (payload ++ rest).take n = payload := by
      rw [← hlen]
      exact List.take_left payload rest
    have hd : (payload ++ rest).drop n = rest := by
      rw [← hlen]
      exact List.drop_left payload rest
    unfold read_string
    rw [h8]
    simp only [ht, hd]
  · intro hlen hn
    have h8 := readLE_bytesLE 8 n payload
    rw [h256, Nat.mod_eq_of_lt hn] at h8
    unfold read_string
    rw [h8]
    simp only [List.take_of_length_le hlen, List.drop_of_length_le hlen]

/-- C8 witness: the lenient-read theorem applied to the concrete stream
whose 2-byte payload is `FF 61` followed by two trailing bytes. -/
theorem read_string_lenient_witness :
    read_string (bytesLE 8 2 ++ ([0xFF, 0x61] ++ [9, 9])) =
      Except.ok (decodeUtf8Ignore [0xFF, 0x61], [9, 9]) ∧
    decodeUtf8Ignore [0xFF, 0x61] = "a" :=
  ⟨(read_string_lenient 2 [0xFF, 0x61] [9, 9]).1 rfl (by norm_num), rfl⟩

/-- C9 counterexample: with standard input not a TTY and `force =
False`, a model already present locally makes
`validate_and_download_model` return `(True, <found file>)` — not
`(False, <resolved directory>)` as the claim states for every model
name.  (No download is invoked, as the instrumentation flag records.) -/
theorem validate_local_model_counterexample :
    validate_and_download_model "/h" none ⟨fun _ => none, none⟩
      ⟨["model.gguf"], true, [], ⟨false, 0, false, false⟩, false, "", Except.ok true⟩
      "test/model" false =
      Except.ok ⟨true, "/h/.agentyard/models/test/model/model.gguf", false⟩ ∧
    validate_and_download_model "/h" none ⟨fun _ => none, none⟩
      ⟨["model.gguf"], true, [], ⟨false, 0, false, false⟩, false, "", Except.ok true⟩
      "test/model" false ≠
      Except.ok ⟨false, "/h/.agentyard/models/test/model", false⟩ := by
  constructor
  · rfl
  · intro h
    have h' : (Except.ok
        (⟨true, "/h/.agentyard/models/test/model/model.gguf", false⟩ : ValidateResult) :
        Except String ValidateResult) =
        Except.ok ⟨false, "/h/.agentyard/models/test/model", false⟩ := h
    injection h' with h''
    injection h'' with hsucc hrest
    exact Bool.noConfusion hsucc

/-- C9 (amended): when no GGUF file is already present under the
resolved directory, standard input is not a TTY and `force` is false,
`validate_and_download_model` returns `(False, <resolved directory>)`
and never invokes the download operation, whatever the registry lookup
and variant listing produced. -/
theorem validate_non_interactive_no_download (home : String)
    (envPath : Option String) (config : Config) (venv : ValidateEnv)
    (model_name : String)
    (hlocal : venv.localGgufFiles = [])
    (htty : venv.stdinIsATty = false) :
    validate_and_download_model home envPath config venv model_name false =
      Except.ok ⟨false, get_model_path home envPath config model_name, false⟩ := by
  obtain ⟨lg, hf, gf, sys, tty, ur, dr⟩ := venv
  simp only at hlocal htty
  subst hlocal htty
  unfold validate_and_download_model
  cases hf <;> simp
  intro _
  cases recommend_quantization sys gf <;> rfl

/-- C9 witness: the amended theorem at a concrete environment in which
the registry found the model and one `Q8_0` variant exists, yet the
non-interactive run performs no download. -/
theorem validate_non_interactive_no_download_witness :
    validate_and_download_model "/h" none ⟨fun _ => none, none⟩
      ⟨[], true, [⟨"f.gguf", "f.gguf", 1, some "Q8_0", "u"⟩], ⟨true, 64, true, true⟩,
        false, "", Except.ok true⟩ "test/model" false =
      Except.ok ⟨false, "/h/.agentyard/models/test/model", false⟩ :=
  validate_non_interactive_no_download "/h" none ⟨fun _ => none, none⟩
    ⟨[], true, [⟨"f.gguf", "f.gguf", 1, some "Q8_0", "u"⟩], ⟨true, 64, true, true⟩,
      false, "", Except.ok true⟩ "test/model" rfl rfl

/-- C10: with `psutil` unavailable the capability probe returns
`"medium"` unconditionally — RAM and GPU inputs are never consulted —
so `recommend_quantization` then selects with the `medium` preference
list `Q5_K_M, Q4_K_M, Q4_0`. -/
theorem system_specs_default_medium (sys : SystemEnv)
    (h : sys.psutilAvailable = false) :
    get_system_specs sys = "medium" ∧
    (∀ files, recommend_quantization sys files =
      (if files.isEmpty then none
       else
         match findPreferred ["Q5_K_M", "Q4_K_M", "Q4_0"] files with
         | some f => some f
         | none => files.head?)) := by
  have hm : get_system_specs sys = "medium" := by
    unfold get_system_specs
    rw [h]
    simp
  refine ⟨hm, fun files => ?_⟩
  unfold recommend_quantization
  rw [hm]
  rfl

/-- C10 witness: a machine reporting 1000 GiB RAM and a GPU but no
`psutil` is classed `medium`, and between a `Q8_0` and a `Q5_K_M`
variant the `medium` list picks `Q5_K_M` (the `high` list would have
picked `Q8_0`). -/
theorem system_specs_default_medium_witness :
    get_system_specs ⟨false, 1000, true, true⟩ = "medium" ∧
    recommend_quantization ⟨false, 1000, true, true⟩
      [⟨"a.gguf", "a.gguf", 1, some "Q8_0", "u1"⟩,
       ⟨"b.gguf", "b.gguf", 2, some "Q5_K_M", "u2"⟩] =
      some ⟨"b.gguf", "b.gguf", 2, some "Q5_K_M", "u2"⟩ := by
  have T := system_specs_default_medium ⟨false, 1000, true, true⟩ rfl
  refine ⟨T.1, ?_⟩
  rw [T.2 [⟨"a.gguf", "a.gguf", 1, some "Q8_0", "u1"⟩,
    ⟨"b.gguf", "b.gguf", 2, some "Q5_K_M", "u2"⟩]]
  rfl
